import Mathlib

/-!
# Verification of the algo-trading engine core

Shallow embedding of the backtest/paper/live trading engine
(`app/engine/...`): the portfolio ledger, the simulated execution
handler, the live risk manager and the backtest runner loop.

Python floats are modelled as exact rationals (`ℚ`), integer quantities
as `ℕ`, and Python `round(x, n)` as round-half-to-even on the exact
value.  Fallible code paths (dictionary indexing that can raise
`KeyError`) are modelled with `Except`.  The portfolio is embedded as
the per-symbol slice of the `Portfolio` class: every claim under study
concerns fills applied to a single symbol, and `update_on_fill` reads
and writes only `positions[fill.symbol]`, so the `positions` dict is
represented by an `Option Position` (which also makes the source
invariant "at most one position per symbol" structural).
-/

/-- Python `round()` to an integer: round half to even (banker's rounding),
applied to the exact rational value. -/
def pyRound (x : ℚ) : ℤ :=
  if x - ⌊x⌋ < 1/2 then ⌊x⌋
  else if 1/2 < x - ⌊x⌋ then ⌊x⌋ + 1
  else if 2 ∣ ⌊x⌋ then ⌊x⌋ else ⌊x⌋ + 1

/-- Python `round(x, 2)`. -/
def round2 (x : ℚ) : ℚ := (pyRound (x * 100) : ℚ) / 100

/-- Python `round(x, 4)`. -/
def round4 (x : ℚ) : ℚ := (pyRound (x * 10000) : ℚ) / 10000

/-- Order / fill side (`side` strings `"BUY"` / `"SELL"` in the source). -/
inductive Side where
  | BUY
  | SELL
deriving Repr, DecidableEq, BEq

/-- Position side (`"LONG"` / `"SHORT"` strings in the source). -/
inductive PosSide where
  | LONG
  | SHORT
deriving Repr, DecidableEq, BEq

/-- Order types supported by `SimulatedExecutionHandler.execute_order`. -/
inductive OrderType where
  | MARKET
  | LIMIT
  | SL
  | SL_M
deriving Repr, DecidableEq, BEq

/-- Product flag: `"MIS"` (intraday) or `"CNC"` (delivery). -/
inductive Product where
  | MIS
  | CNC
deriving Repr, DecidableEq, BEq

/-- Exchange: the charge model distinguishes only BSE from the NSE default. -/
inductive Exchange where
  | NSE
  | BSE
deriving Repr, DecidableEq, BEq

@[simp] theorem Side.sell_eq_buy_iff : (Side.SELL = Side.BUY) ↔ False := by decide

@[simp] theorem Side.buy_eq_sell_iff : (Side.BUY = Side.SELL) ↔ False := by decide

@[simp] theorem PosSide.long_eq_short_iff : (PosSide.LONG = PosSide.SHORT) ↔ False := by decide

@[simp] theorem PosSide.short_eq_long_iff : (PosSide.SHORT = PosSide.LONG) ↔ False := by decide

/-- `FillEvent` dataclass (`app/engine/common/events.py`), single-symbol slice. -/
structure FillEvent where
  timestamp : ℕ
  side : Side
  quantity : ℕ
  fill_price : ℚ
  commission : ℚ
  order_id : String := ""
deriving Repr, DecidableEq

/-- One entry of `Portfolio.positions` (a per-symbol dict in the source). -/
structure Position where
  quantity : ℕ
  avg_price : ℚ
  side : PosSide
  total_cost : ℚ
  entry_timestamp : ℕ
  entry_order_id : String := ""
deriving Repr, DecidableEq

/-- A completed round-trip trade dict built by `Portfolio._reduce_position`. -/
structure Trade where
  side : PosSide
  quantity : ℕ
  entry_price : ℚ
  exit_price : ℚ
  pnl : ℚ
  charges : ℚ
  net_pnl : ℚ
  pnl_percent : ℚ
  entry_at : ℕ
  exit_at : ℕ
  entry_order_id : String := ""
  exit_order_id : String := ""
deriving Repr, DecidableEq

/-- An entry of `Portfolio.orders` (order record dicts kept for reference
and mutated by the runner when an order completes / is cancelled / rejected). -/
structure OrderRec where
  order_id : String
  side : Side
  quantity : ℕ
  order_type : OrderType
  price : Option ℚ
  status : String
  fill_price : Option ℚ := none
  commission : Option ℚ := none
deriving Repr, DecidableEq

/-- `Portfolio` (`app/engine/backtest/portfolio.py`), single-symbol slice:
`position` is `positions.get(symbol)`. -/
structure Portfolio where
  initial_capital : ℚ
  cash : ℚ
  position : Option Position
  equity_curve : List (ℕ × ℚ)
  trades : List Trade
  orders : List OrderRec
  total_charges : ℚ
deriving Repr, DecidableEq

/-- `Portfolio.__init__`. -/
def Portfolio.init (initial_capital : ℚ) : Portfolio :=
  { initial_capital := initial_capital
    cash := initial_capital
    position := none
    equity_curve := []
    trades := []
    orders := []
    total_charges := 0 }

/-- `Portfolio._open_position`. -/
def Portfolio.open_position (p : Portfolio) (fill : FillEvent) : Portfolio :=
  let side := match fill.side with
    | .BUY => PosSide.LONG
    | .SELL => PosSide.SHORT
  { p with position := some {
      quantity := fill.quantity,
        avg_price := fill.fill_price,
        side := side,
        total_cost := fill.fill_price * fill.quantity,
        entry_timestamp := fill.timestamp,
        entry_order_id := fill.order_id } }

/-- `Portfolio._add_to_position` (the update applied to the existing
position entry; the caller guarantees the position exists). -/
def add_to_position (pos : Position) (fill : FillEvent) : Position :=
  let new_cost := fill.fill_price * fill.quantity
  let total_qty := pos.quantity + fill.quantity
  let total_cost := pos.total_cost + new_cost
  { pos with
      quantity := total_qty
      total_cost := total_cost
      avg_price := round2 (total_cost / total_qty) }

/-- `Portfolio._reduce_position`: reduce, close or reverse the existing
position with an opposite-side fill.  Returns the updated portfolio and
the completed trade dict. -/
def Portfolio.reduce_position (p : Portfolio) (pos : Position) (fill : FillEvent) :
    Portfolio × Trade :=
  let close_qty := min fill.quantity pos.quantity
  let remaining_qty := pos.quantity - close_qty
  let excess_qty := fill.quantity - close_qty
  let pnl : ℚ := match pos.side with
    | .LONG => (fill.fill_price - pos.avg_price) * close_qty
    | .SHORT => (pos.avg_price - fill.fill_price) * close_qty
  let cash1 : ℚ := match pos.side with
    | .LONG => p.cash + (fill.fill_price * close_qty - fill.commission)
    | .SHORT => p.cash - (fill.fill_price * close_qty + fill.commission)
  let net_pnl := pnl - fill.commission
  let trade : Trade :=
    { side := pos.side,
      quantity := close_qty,
      entry_price := pos.avg_price,
      exit_price := fill.fill_price,
      pnl := round2 pnl,
      charges := round2 fill.commission,
      net_pnl := round2 net_pnl,
      pnl_percent :=
        if pos.avg_price * close_qty ≠ 0 then
          round4 (pnl / (pos.avg_price * close_qty) * 100)
        else 0,
      entry_at := pos.entry_timestamp,
      exit_at := fill.timestamp,
      entry_order_id := pos.entry_order_id,
      exit_order_id := fill.order_id }
  let position1 : Option Position :=
    if remaining_qty > 0 then
      some { pos with quantity := remaining_qty, total_cost := pos.avg_price * remaining_qty }
    else none
  let new_side := match fill.side with
    | .BUY => PosSide.LONG
    | .SELL => PosSide.SHORT
  let position2 : Option Position :=
    if excess_qty > 0 then
      some { quantity := excess_qty,
             avg_price := fill.fill_price,
             side := new_side,
             total_cost := fill.fill_price * excess_qty,
             entry_timestamp := fill.timestamp,
             entry_order_id := fill.order_id }
    else position1
  let cash2 : ℚ :=
    if excess_qty > 0 then
      match fill.side with
      | .BUY => cash1 - fill.fill_price * excess_qty
      | .SELL => cash1 + fill.fill_price * excess_qty
    else cash1
  ({ p with cash := cash2, position := position2, trades := p.trades ++ [trade] }, trade)

/-- `Portfolio.update_on_fill`: update positions and cash when an order is
filled; returns the completed trade dict when the fill reduced, closed or
reversed a position. -/
def Portfolio.update_on_fill (p : Portfolio) (fill : FillEvent) :
    Portfolio × Option Trade :=
  let p := { p with total_charges := p.total_charges + fill.commission }
  match p.position with
  | none =>
      let p1 := p.open_position fill
      let p2 :=
        if fill.side = Side.BUY then
          { p1 with cash := p1.cash - (fill.fill_price * fill.quantity + fill.commission) }
        else
          { p1 with cash := p1.cash + (fill.fill_price * fill.quantity - fill.commission) }
      (p2, none)
  | some pos =>
      if (fill.side = Side.BUY ∧ pos.side = PosSide.LONG) ∨
         (¬fill.side = Side.BUY ∧ pos.side = PosSide.SHORT) then
        let p1 := { p with position := some (add_to_position pos fill) }
        let p2 :=
          if fill.side = Side.BUY then
            { p1 with cash := p1.cash - (fill.fill_price * fill.quantity + fill.commission) }
          else
            { p1 with cash := p1.cash + (fill.fill_price * fill.quantity - fill.commission) }
        (p2, none)
      else
        let r := p.reduce_position pos fill
        (r.1, some r.2)

/-- `Portfolio.get_portfolio_value`: cash plus mark-to-market of the open
position (`current_price = current_prices.get(symbol, avg_price)`). -/
def Portfolio.get_portfolio_value (p : Portfolio) (current_price : Option ℚ) : ℚ :=
  match p.position with
  | none => p.cash
  | some pos =>
      let price := current_price.getD pos.avg_price
      match pos.side with
      | .LONG => p.cash + price * pos.quantity
      | .SHORT => p.cash - price * pos.quantity

/-- `Portfolio.record_equity`. -/
def Portfolio.record_equity (p : Portfolio) (timestamp : ℕ) (current_price : Option ℚ) :
    Portfolio :=
  { p with equity_curve :=
      p.equity_curve ++ [(timestamp, round2 (p.get_portfolio_value current_price))] }

/-- `Portfolio.close_all_positions`: synthesize a zero-commission closing
fill for the open position (if any). -/
def Portfolio.close_all_positions (p : Portfolio) (current_price : Option ℚ)
    (timestamp : ℕ) : Portfolio × List Trade :=
  match p.position with
  | none => (p, [])
  | some pos =>
      let price := current_price.getD pos.avg_price
      let close_side := match pos.side with
        | .LONG => Side.SELL
        | .SHORT => Side.BUY
      let fill : FillEvent :=
        { timestamp := timestamp,
          side := close_side,
          quantity := pos.quantity,
          fill_price := price,
          commission := 0,
          order_id := "CLOSE" }
      let r := p.update_on_fill fill
      (r.1, match r.2 with | some t => [t] | none => [])

/-- Signed turnover of one fill: `+price*qty` for a BUY, `-price*qty` for a SELL. -/
def signedTurnover (f : FillEvent) : ℚ :=
  match f.side with
  | .BUY => f.fill_price * f.quantity
  | .SELL => -(f.fill_price * f.quantity)

/-- Net signed turnover of a fill sequence. -/
def netTurnover (fs : List FillEvent) : ℚ := (fs.map signedTurnover).sum

/-- Cumulative commission of a fill sequence. -/
def totalCommission (fs : List FillEvent) : ℚ := (fs.map (·.commission)).sum

/-- Replay a sequence of fills through `Portfolio.update_on_fill` starting
from a fresh portfolio. -/
def replayFills (initial_capital : ℚ) (fs : List FillEvent) : Portfolio :=
  fs.foldl (fun p f => (p.update_on_fill f).1) (Portfolio.init initial_capital)

theorem reduce_position_cash (p : Portfolio) (pos : Position) (f : FillEvent)
    (h : (f.side = Side.SELL ∧ pos.side = PosSide.LONG) ∨
         (f.side = Side.BUY ∧ pos.side = PosSide.SHORT)) :
    ((p.reduce_position pos f).1).cash = p.cash - signedTurnover f - f.commission := by
  have hle : min f.quantity pos.quantity ≤ f.quantity := min_le_left _ _
  rcases h with ⟨hf, hp⟩ | ⟨hf, hp⟩ <;>
    simp only [Portfolio.reduce_position, hf, hp, signedTurnover] <;>
    split <;> rename_i hx
  · rw [Nat.cast_sub hle]; ring
  · have hq : min f.quantity pos.quantity = f.quantity := by omega
    rw [hq]; ring
  · rw [Nat.cast_sub hle]; ring
  · have hq : min f.quantity pos.quantity = f.quantity := by omega
    rw [hq]; ring

theorem update_on_fill_cash (p : Portfolio) (f : FillEvent) :
    ((p.update_on_fill f).1).cash = p.cash - signedTurnover f - f.commission := by
  cases hpos : p.position with
  | none =>
      cases hside : f.side <;>
        simp [Portfolio.update_on_fill, Portfolio.open_position, signedTurnover,
          hpos, hside] <;> ring
  | some pos =>
      cases hside : f.side <;> cases hps : pos.side
      · -- BUY on LONG: extend
        simp [Portfolio.update_on_fill, add_to_position, signedTurnover, hpos, hside, hps]
        ring
      · -- BUY on SHORT: reduce
        have h := reduce_position_cash
          { p with total_charges := p.total_charges + f.commission } pos f
          (Or.inr ⟨hside, hps⟩)
        simp only [Portfolio.update_on_fill, hpos, hside, hps]
        simpa using h
      · -- SELL on LONG: reduce
        have h := reduce_position_cash
          { p with total_charges := p.total_charges + f.commission } pos f
          (Or.inl ⟨hside, hps⟩)
        simp only [Portfolio.update_on_fill, hpos, hside, hps]
        simpa using h
      · -- SELL on SHORT: extend
        simp [Portfolio.update_on_fill, add_to_position, signedTurnover, hpos, hside, hps]
        ring

/-- **C1.** For every sequence of fills on one symbol, the cash after
replaying them through `Portfolio.update_on_fill` equals the initial
capital minus the net signed turnover (BUY turnover subtracted, SELL
turnover added) minus the cumulative commission. -/
theorem C1_cash_closed_form (initial_capital : ℚ) (fs : List FillEvent) :
    (replayFills initial_capital fs).cash =
      initial_capital - netTurnover fs - totalCommission fs := by
  suffices h : ∀ (p : Portfolio) (fs : List FillEvent),
      (fs.foldl (fun p f => (p.update_on_fill f).1) p).cash =
        p.cash - netTurnover fs - totalCommission fs by
    simpa [replayFills, Portfolio.init] using h (Portfolio.init initial_capital) fs
  intro p fs
  induction fs generalizing p with
  | nil => simp [netTurnover, totalCommission]
  | cons f rest ih =>
      simp only [List.foldl_cons, ih, update_on_fill_cash, netTurnover, totalCommission,
        List.map_cons, List.sum_cons]
      ring

/-- **C2 (counterexample).** Opening a LONG with entry commission 5 and
closing it with exit commission 3 yields one Trade whose `net_pnl` is
`pnl - 3` (exit commission only), not `pnl - (5 + 3)` as the claim's
"total commission of the round trip" requires. -/
theorem C2_counterexample :
    (replayFills 1000 [⟨0, Side.BUY, 1, 10, 5, "en"⟩,
                       ⟨1, Side.SELL, 1, 20, 3, "ex"⟩]).trades.length = 1 ∧
    ∀ t ∈ (replayFills 1000 [⟨0, Side.BUY, 1, 10, 5, "en"⟩,
                             ⟨1, Side.SELL, 1, 20, 3, "ex"⟩]).trades,
      t.pnl = (20 - 10) * 1 ∧ ¬ t.net_pnl = t.pnl - (5 + 3) := by
  norm_num [replayFills, Portfolio.update_on_fill, Portfolio.init, Portfolio.open_position,
    Portfolio.reduce_position, round2, round4, pyRound]

/-- **C2 (amended).** Opening a LONG position of quantity `Q` with a BUY
fill at `e` and fully closing it with a SELL fill of quantity `Q` at `x`
yields exactly one Trade with `pnl = (x-e)*Q` and
`net_pnl = pnl_raw - exitCommission` — only the closing fill's commission
is subtracted, not the round trip's total — both rounded to two decimals
as the source does. -/
theorem C2_round_trip_amended (init e x c1 c2 : ℚ) (Q t1 t2 : ℕ) (hQ : 0 < Q) :
    (replayFills init [⟨t1, Side.BUY, Q, e, c1, "en"⟩,
                       ⟨t2, Side.SELL, Q, x, c2, "ex"⟩]).position = none ∧
    (replayFills init [⟨t1, Side.BUY, Q, e, c1, "en"⟩,
                       ⟨t2, Side.SELL, Q, x, c2, "ex"⟩]).trades =
      [{ side := PosSide.LONG, quantity := Q, entry_price := e, exit_price := x,
         pnl := round2 ((x - e) * Q), charges := round2 c2,
         net_pnl := round2 ((x - e) * Q - c2),
         pnl_percent :=
           if e * (Q : ℚ) ≠ 0 then round4 ((x - e) * Q / (e * Q) * 100) else 0,
         entry_at := t1, exit_at := t2,
         entry_order_id := "en", exit_order_id := "ex" }] := by
  simp [replayFills, Portfolio.update_on_fill, Portfolio.init, Portfolio.open_position,
    Portfolio.reduce_position, min_self]

/-- Witness for C2_round_trip_amended at `e=10, x=20, Q=1, c1=5, c2=3`. -/
theorem C2_round_trip_amended_witness :
    (replayFills 1000 [⟨0, Side.BUY, 1, 10, 5, "en"⟩,
                       ⟨1, Side.SELL, 1, 20, 3, "ex"⟩]).position = none ∧
    (replayFills 1000 [⟨0, Side.BUY, 1, 10, 5, "en"⟩,
                       ⟨1, Side.SELL, 1, 20, 3, "ex"⟩]).trades =
      [{ side := PosSide.LONG, quantity := 1, entry_price := 10, exit_price := 20,
         pnl := round2 ((20 - 10) * 1), charges := round2 3,
         net_pnl := round2 ((20 - 10) * 1 - 3),
         pnl_percent :=
           if (10 : ℚ) * (1 : ℕ) ≠ 0 then round4 ((20 - 10) * 1 / (10 * 1) * 100) else 0,
         entry_at := 0, exit_at := 1,
         entry_order_id := "en", exit_order_id := "ex" }] :=
  C2_round_trip_amended 1000 10 20 5 3 1 0 1 (by decide)

/-- **C3.** A SELL fill of quantity `Q2` against a LONG of `Q1 < Q2`
appends exactly one Trade of quantity `Q1` and leaves exactly one
position for the symbol: a SHORT of `Q2 - Q1` at the fill price.  (The
single-symbol position state is an `Option`, so at most one position per
symbol holds structurally; old side close and new side open happen inside
one `update_on_fill` call.) -/
theorem C3_reversal (init e x c1 c2 : ℚ) (Q1 Q2 t1 t2 : ℕ)
    (h1 : 0 < Q1) (h2 : Q1 < Q2) :
    (replayFills init [⟨t1, Side.BUY, Q1, e, c1, "en"⟩,
                       ⟨t2, Side.SELL, Q2, x, c2, "ex"⟩]).trades.length = 1 ∧
    (∀ t ∈ (replayFills init [⟨t1, Side.BUY, Q1, e, c1, "en"⟩,
                              ⟨t2, Side.SELL, Q2, x, c2, "ex"⟩]).trades,
      t.quantity = Q1) ∧
    (replayFills init [⟨t1, Side.BUY, Q1, e, c1, "en"⟩,
                       ⟨t2, Side.SELL, Q2, x, c2, "ex"⟩]).position =
      some { quantity := Q2 - Q1, avg_price := x, side := PosSide.SHORT,
             total_cost := x * ((Q2 - Q1 : ℕ) : ℚ), entry_timestamp := t2,
             entry_order_id := "ex" } := by
  have hmin : min Q2 Q1 = Q1 := min_eq_right h2.le
  have hpos : Q2 - min Q2 Q1 > 0 := by omega
  simp [replayFills, Portfolio.update_on_fill, Portfolio.init, Portfolio.open_position,
    Portfolio.reduce_position, hmin, hpos]
  have hc : (Q2 : ℚ) ⊓ (Q1 : ℚ) = (Q1 : ℚ) := min_eq_right (by exact_mod_cast h2.le)
  rw [if_pos h2, Nat.cast_sub h2.le, hc]

/-- Witness for C3_reversal at `Q1=1, Q2=3, e=10, x=12`. -/
theorem C3_reversal_witness :
    (replayFills 1000 [⟨0, Side.BUY, 1, 10, 2, "en"⟩,
                       ⟨1, Side.SELL, 3, 12, 2, "ex"⟩]).trades.length = 1 ∧
    (∀ t ∈ (replayFills 1000 [⟨0, Side.BUY, 1, 10, 2, "en"⟩,
                              ⟨1, Side.SELL, 3, 12, 2, "ex"⟩]).trades,
      t.quantity = 1) ∧
    (replayFills 1000 [⟨0, Side.BUY, 1, 10, 2, "en"⟩,
                       ⟨1, Side.SELL, 3, 12, 2, "ex"⟩]).position =
      some { quantity := 3 - 1, avg_price := 12, side := PosSide.SHORT,
             total_cost := 12 * (((3 - 1 : ℕ) : ℚ)), entry_timestamp := 1,
             entry_order_id := "ex" } :=
  C3_reversal 1000 10 12 2 2 1 3 0 1 (by decide) (by decide)

/-! ## Simulated execution handler (`app/engine/backtest/execution_handler.py`) -/

def EQUITY_DELIVERY_BROKERAGE_PCT : ℚ := 0

def INTRADAY_BROKERAGE_PCT : ℚ := 3 / 10000

def INTRADAY_BROKERAGE_MAX : ℚ := 20

def STT_DELIVERY_PCT : ℚ := 1 / 1000

def STT_INTRADAY_SELL_PCT : ℚ := 25 / 100000

def EXCHANGE_TXN_NSE : ℚ := 345 / 10000000

def EXCHANGE_TXN_BSE : ℚ := 375 / 10000000

def GST_RATE : ℚ := 18 / 100

def SEBI_CHARGES : ℚ := 1 / 1000000

def STAMP_DUTY_BUY : ℚ := 15 / 100000

/-- `SimulatedExecutionHandler.calculate_charges`: Zerodha-style total
transaction charges for one side of a trade. -/
def calculate_charges (exchange : Exchange) (side : Side) (quantity : ℕ) (price : ℚ)
    (product : Product) : ℚ :=
  let turnover : ℚ := (quantity : ℚ) * price
  let brokerage : ℚ :=
    if product = Product.MIS then min (turnover * INTRADAY_BROKERAGE_PCT) INTRADAY_BROKERAGE_MAX
    else 0
  let stt : ℚ :=
    if product = Product.MIS then
      (if ¬ side = Side.BUY then turnover * STT_INTRADAY_SELL_PCT else 0)
    else turnover * STT_DELIVERY_PCT
  let txn_rate : ℚ := match exchange with
    | .BSE => EXCHANGE_TXN_BSE
    | .NSE => EXCHANGE_TXN_NSE
  let exchange_txn := turnover * txn_rate
  let gst := (brokerage + exchange_txn) * GST_RATE
  let sebi := turnover * SEBI_CHARGES
  let stamp : ℚ := if side = Side.BUY then turnover * STAMP_DUTY_BUY else 0
  round2 (brokerage + stt + exchange_txn + gst + sebi + stamp)

/-- An OHLCV bar dict with all fields present, as produced by
`HistoricalDataHandler.get_current_bar` when data exists. -/
structure BarD where
  open_ : ℚ
  high : ℚ
  low : ℚ
  close : ℚ
  timestamp : ℕ
deriving Repr, DecidableEq

/-- A Python bar dict value: `none` models the empty dict `{}` returned by
`get_current_bar` when no data is available (lookups with `.get` yield
`None`, indexing raises `KeyError`). -/
abbrev PyBar := Option BarD

/-- `fill_at` configuration values. -/
inductive FillAt where
  | next_open
  | current_close
deriving Repr, DecidableEq

/-- `SimulatedExecutionHandler` state: `slippage_pct` is the fraction
(`slippage_percent / 100.0` from the constructor). -/
structure ExecConfig where
  slippage_pct : ℚ
  fill_at : FillAt
deriving Repr, DecidableEq

/-- `OrderEvent` dataclass (single-symbol slice). -/
structure OrderEvent where
  timestamp : ℕ
  side : Side
  quantity : ℕ
  order_type : OrderType
  order_id : String := ""
  price : Option ℚ := none
  trigger_price : Option ℚ := none
  product : Product := Product.MIS
  exchange : Exchange := Exchange.NSE
  status : String := "pending"
deriving Repr, DecidableEq

/-- `SimulatedExecutionHandler._get_base_price`. -/
def get_base_price (cfg : ExecConfig) (current_bar : PyBar) (next_bar : Option PyBar) :
    Option ℚ :=
  match cfg.fill_at with
  | .next_open =>
      match next_bar with
      | none => current_bar.map (·.close)
      | some nb => nb.map (·.open_)
  | .current_close => current_bar.map (·.close)

/-- `SimulatedExecutionHandler._get_execution_bar` (`current_bar` is always
a dict in the source, so the result is a dict, possibly empty). -/
def get_execution_bar (cfg : ExecConfig) (current_bar : PyBar) (next_bar : Option PyBar) :
    PyBar :=
  match cfg.fill_at with
  | .next_open =>
      match next_bar with
      | some nb => nb
      | none => current_bar
  | .current_close => current_bar

/-- `SimulatedExecutionHandler._apply_slippage`. -/
def apply_slippage (cfg : ExecConfig) (price : ℚ) (side : Side) : ℚ :=
  match side with
  | .BUY => round2 (price * (1 + cfg.slippage_pct))
  | .SELL => round2 (price * (1 - cfg.slippage_pct))

/-- `SimulatedExecutionHandler._create_fill`: commission is computed on the
unrounded fill price; the stored `fill_price` is rounded to 2 decimals. -/
def create_fill (cfg : ExecConfig) (o : OrderEvent) (fill_price : ℚ)
    (current_bar : PyBar) (next_bar : Option PyBar) : FillEvent :=
  let commission := calculate_charges o.exchange o.side o.quantity fill_price o.product
  let fill_ts : ℕ :=
    match cfg.fill_at, next_bar with
    | .next_open, some nb => (nb.map (·.timestamp)).getD o.timestamp
    | _, _ => (current_bar.map (·.timestamp)).getD o.timestamp
  { timestamp := fill_ts
    side := o.side
    quantity := o.quantity
    fill_price := round2 fill_price
    commission := commission
    order_id := o.order_id }

/-- `SimulatedExecutionHandler._fill_market`. -/
def fill_market (cfg : ExecConfig) (o : OrderEvent) (current_bar : PyBar)
    (next_bar : Option PyBar) : Option FillEvent :=
  match get_base_price cfg current_bar next_bar with
  | none => none
  | some base_price =>
      some (create_fill cfg o (apply_slippage cfg base_price o.side) current_bar next_bar)

/-- `SimulatedExecutionHandler._fill_limit`.  Indexing an empty bar dict
raises `KeyError` (modelled as `.error`); an order without a price is
skipped with a warning. -/
def fill_limit (cfg : ExecConfig) (o : OrderEvent) (current_bar : PyBar)
    (next_bar : Option PyBar) : Except String (Option FillEvent) :=
  match o.price with
  | none => .ok none
  | some limit =>
      match get_execution_bar cfg current_bar next_bar with
      | none => .error "KeyError: low"
      | some b =>
          match o.side with
          | .BUY =>
              if b.low ≤ limit then
                .ok (some (create_fill cfg o (min limit b.open_) current_bar next_bar))
              else .ok none
          | .SELL =>
              if b.high ≥ limit then
                .ok (some (create_fill cfg o (max limit b.open_) current_bar next_bar))
              else .ok none

/-- `SimulatedExecutionHandler._fill_stop_loss`. -/
def fill_stop_loss (cfg : ExecConfig) (o : OrderEvent) (current_bar : PyBar)
    (next_bar : Option PyBar) : Except String (Option FillEvent) :=
  match o.trigger_price with
  | none => .ok none
  | some trigger =>
      match get_execution_bar cfg current_bar next_bar with
      | none => .error "KeyError"
      | some b =>
          let limit_price := o.price.getD trigger
          match o.side with
          | .BUY =>
              if b.high ≥ trigger then
                if b.low ≤ limit_price then
                  .ok (some (create_fill cfg o
                    (min limit_price (max b.open_ trigger)) current_bar next_bar))
                else .ok none
              else .ok none
          | .SELL =>
              if b.low ≤ trigger then
                if b.high ≥ limit_price then
                  .ok (some (create_fill cfg o
                    (max limit_price (min b.open_ trigger)) current_bar next_bar))
                else .ok none
              else .ok none

/-- `SimulatedExecutionHandler._fill_stop_loss_market`. -/
def fill_stop_loss_market (cfg : ExecConfig) (o : OrderEvent) (current_bar : PyBar)
    (next_bar : Option PyBar) : Except String (Option FillEvent) :=
  match o.trigger_price with
  | none => .ok none
  | some trigger =>
      match get_execution_bar cfg current_bar next_bar with
      | none => .error "KeyError"
      | some b =>
          match o.side with
          | .BUY =>
              if b.high ≥ trigger then
                .ok (some (create_fill cfg o
                  (apply_slippage cfg (max b.open_ trigger) o.side) current_bar next_bar))
              else .ok none
          | .SELL =>
              if b.low ≤ trigger then
                .ok (some (create_fill cfg o
                  (apply_slippage cfg (min b.open_ trigger) o.side) current_bar next_bar))
              else .ok none

/-- `SimulatedExecutionHandler.execute_order` (dispatch on order type). -/
def execute_order (cfg : ExecConfig) (o : OrderEvent) (current_bar : PyBar)
    (next_bar : Option PyBar) : Except String (Option FillEvent) :=
  match o.order_type with
  | .MARKET => .ok (fill_market cfg o current_bar next_bar)
  | .LIMIT => fill_limit cfg o current_bar next_bar
  | .SL => fill_stop_loss cfg o current_bar next_bar
  | .SL_M => fill_stop_loss_market cfg o current_bar next_bar

theorem pyRound_le_int (z : ℚ) (k : ℤ) (h : z ≤ (k : ℚ)) : pyRound z ≤ k := by
  have hfk : ⌊z⌋ ≤ k := by
    have h1 := Int.floor_le_floor h
    simpa using h1
  have hfz : (⌊z⌋ : ℚ) ≤ z := Int.floor_le z
  unfold pyRound
  split
  · exact hfk
  · rename_i h1
    push_neg at h1
    have hlt : (⌊z⌋ : ℚ) < (k : ℚ) := by linarith
    have : ⌊z⌋ < k := by exact_mod_cast hlt
    split
    · omega
    · split <;> omega

theorem round2_le_of_le (x L : ℚ) (hden : (100 * L).den = 1) (h : x ≤ L) :
    round2 x ≤ L := by
  have hk : ((100 * L).num : ℚ) = 100 * L := by
    have h1 := Rat.num_div_den (100 * L)
    rw [hden] at h1
    simpa using h1
  have h2 : x * 100 ≤ ((100 * L).num : ℚ) := by rw [hk]; linarith
  have h3 : pyRound (x * 100) ≤ (100 * L).num := pyRound_le_int _ _ h2
  have h4 : (pyRound (x * 100) : ℚ) ≤ ((100 * L).num : ℚ) := by exact_mod_cast h3
  rw [round2]
  rw [hk] at h4
  linarith

/-- Execution-handler config used by the C6 scenarios. -/
def w6cfg : ExecConfig := { slippage_pct := 1/2000, fill_at := FillAt.current_close }

/-- BUY LIMIT order at a limit price of 99.996 (not a whole number of paise). -/
def w6subPaiseOrder : OrderEvent :=
  { timestamp := 0, side := Side.BUY, quantity := 10, order_type := OrderType.LIMIT,
    order_id := "L1", price := some (99996/1000) }

/-- Bar reachable below the 99.996 limit. -/
def w6subPaiseBar : BarD := { open_ := 100, high := 110, low := 99, close := 105, timestamp := 7 }

/-- **C6 (counterexample).** A BUY LIMIT at 99.996 against a bar with
open 100 and low 99 fills, and the stored fill price is
`round2 99.996 = 100`, which exceeds the limit price — so "never
exceeding L" fails for a limit price that is not a whole number of paise. -/
theorem C6_counterexample :
    execute_order w6cfg w6subPaiseOrder (some w6subPaiseBar) none =
      .ok (some (create_fill w6cfg w6subPaiseOrder (min (99996/1000) 100)
        (some w6subPaiseBar) none)) ∧
    (create_fill w6cfg w6subPaiseOrder (min (99996/1000) 100)
        (some w6subPaiseBar) none).fill_price = 100 ∧
    ¬ (create_fill w6cfg w6subPaiseOrder (min (99996/1000) 100)
        (some w6subPaiseBar) none).fill_price ≤ 99996/1000 := by
  refine ⟨?_, ?_, ?_⟩
  · norm_num [execute_order, fill_limit, get_execution_bar, w6cfg, w6subPaiseOrder,
      w6subPaiseBar]
  · have hmin : min ((99996:ℚ)/1000) 100 = 99996/1000 := min_eq_left (by norm_num)
    simp only [create_fill, hmin]
    norm_num [round2, pyRound]
  · have hmin : min ((99996:ℚ)/1000) 100 = 99996/1000 := min_eq_left (by norm_num)
    simp only [create_fill, hmin]
    norm_num [round2, pyRound]

/-- **C6 (amended).** For a BUY LIMIT order with limit price `L` evaluated
against execution bar `b`: it fills iff `b.low ≤ L`; the stored fill price
is `min L b.open` rounded to two decimals (so the more favorable of limit
and open, rounded); and the fill price never exceeds `L` provided `L` is a
whole number of paise (`(100*L).den = 1`). -/
theorem C6_limit_buy_amended (cfg : ExecConfig) (o : OrderEvent) (current_bar : PyBar)
    (next_bar : Option PyBar) (L : ℚ) (b : BarD)
    (hty : o.order_type = OrderType.LIMIT) (hside : o.side = Side.BUY)
    (hp : o.price = some L)
    (hb : get_execution_bar cfg current_bar next_bar = some b) :
    (b.low ≤ L →
      execute_order cfg o current_bar next_bar =
        .ok (some (create_fill cfg o (min L b.open_) current_bar next_bar)) ∧
      (create_fill cfg o (min L b.open_) current_bar next_bar).fill_price =
        round2 (min L b.open_)) ∧
    (¬ b.low ≤ L → execute_order cfg o current_bar next_bar = .ok none) ∧
    ((100 * L).den = 1 → round2 (min L b.open_) ≤ L) := by
  refine ⟨?_, ?_, ?_⟩
  · intro hle
    constructor
    · simp [execute_order, hty, fill_limit, hp, hb, hside, hle]
    · simp [create_fill]
  · intro hnle
    simp [execute_order, hty, fill_limit, hp, hb, hside, hnle]
  · intro hden
    exact round2_le_of_le _ _ hden (min_le_left _ _)

/-- BUY LIMIT order at 100 for the C6 witness. -/
def w6order : OrderEvent :=
  { timestamp := 0, side := Side.BUY, quantity := 5, order_type := OrderType.LIMIT,
    order_id := "L2", price := some 100 }

/-- Bar with low 101, high 110: the 100 limit is not reachable. -/
def w6barNoFill : BarD := { open_ := 102, high := 110, low := 101, close := 105, timestamp := 3 }

/-- Bar with low 95, high 105: the 100 limit is reachable. -/
def w6barFill : BarD := { open_ := 102, high := 105, low := 95, close := 100, timestamp := 4 }

/-- Witness for C6_limit_buy_amended: a LIMIT BUY at 100 does not fill on a
bar with low 101..high 110, and fills at a price ≤ 100 on a bar with
low 95..high 105. -/
theorem C6_limit_buy_amended_witness :
    execute_order w6cfg w6order (some w6barNoFill) none = .ok none ∧
    execute_order w6cfg w6order (some w6barFill) none =
      .ok (some (create_fill w6cfg w6order (min 100 102) (some w6barFill) none)) ∧
    (create_fill w6cfg w6order (min 100 102) (some w6barFill) none).fill_price ≤ 100 := by
  have h1 := (C6_limit_buy_amended w6cfg w6order (some w6barNoFill) none 100 w6barNoFill
    rfl rfl rfl rfl).2.1 (by norm_num [w6barNoFill])
  have h2 := (C6_limit_buy_amended w6cfg w6order (some w6barFill) none 100 w6barFill
    rfl rfl rfl rfl).1 (by norm_num [w6barFill])
  have h3 := (C6_limit_buy_amended w6cfg w6order (some w6barFill) none 100 w6barFill
    rfl rfl rfl rfl).2.2 (by norm_num)
  refine ⟨h1, h2.1, ?_⟩
  rw [show (102:ℚ) = w6barFill.open_ from rfl, h2.2]
  exact h3

/-! ## Risk manager (`app/engine/live/risk_manager.py`)

One clock read drives three views of "now": the absolute UTC instant (for
the rolling rate-limit window), the IST calendar date (for the daily
reset) and the IST seconds-of-day (for the market-hours window); they are
carried as one record here. -/

/-- 9:15 IST in seconds of day. -/
def MARKET_OPEN_SEC : ℚ := 9 * 3600 + 15 * 60

/-- 15:30 IST in seconds of day. -/
def MARKET_CLOSE_SEC : ℚ := 15 * 3600 + 30 * 60

/-- `RiskManager` configuration (constructor defaults omitted). -/
structure RMConfig where
  max_position_size : ℕ
  max_order_value : ℚ
  daily_loss_limit : ℚ
  max_open_positions : ℕ
  max_orders_per_minute : ℕ
  enforce_market_hours : Bool
deriving Repr, DecidableEq

/-- `RiskManager` mutable tracking state (`_daily_date` starts as `""`,
modelled by `none`). -/
structure RMState where
  daily_pnl : ℚ
  order_timestamps : List ℚ
  current_positions_count : ℕ
  daily_date : Option ℤ
deriving Repr, DecidableEq

/-- One instant of wall-clock time as the risk manager observes it. -/
structure Now where
  day : ℤ
  ist_sec : ℚ
  utc : ℚ
deriving Repr, DecidableEq

/-- One entry of `current_positions` (dicts with `symbol` and `side`). -/
structure RMPos where
  symbol : String
  side : PosSide
deriving Repr, DecidableEq

/-- Rejection reasons, one per risk check that can fail (the source returns
formatted strings; the constructor identifies which check fired). -/
inductive Reason where
  | marketClosed
  | positionSize (quantity : ℕ) (max : ℕ)
  | orderValue (value : ℚ) (max : ℚ)
  | dailyLoss (pnl : ℚ) (limit : ℚ)
  | maxPositions (max : ℕ)
  | rateLimit (max : ℕ)
deriving Repr, DecidableEq

/-- Does a reason come from the order-value check? -/
def Reason.isOrderValue : Reason → Bool
  | .orderValue _ _ => true
  | _ => false

/-- `RiskManager.reset_daily`. -/
def reset_daily (st : RMState) (now : Now) : RMState :=
  { st with daily_pnl := 0, order_timestamps := [], daily_date := some now.day }

/-- `RiskManager.validate_order`: the six checks in source order,
short-circuiting on the first failure.  Returns the updated state, the
allowed flag and the rejection reason. -/
def validate_order (cfg : RMConfig) (st : RMState) (now : Now)
    (symbol : String) (side : Side) (quantity : ℕ) (price : Option ℚ)
    (current_positions : List RMPos) : RMState × Bool × Option Reason :=
  let st := if ¬ some now.day = st.daily_date then reset_daily st now else st
  if cfg.enforce_market_hours ∧
      (now.ist_sec < MARKET_OPEN_SEC ∨ now.ist_sec > MARKET_CLOSE_SEC) then
    (st, false, some .marketClosed)
  else if quantity > cfg.max_position_size then
    (st, false, some (.positionSize quantity cfg.max_position_size))
  else if (price.getD 0) > 0 ∧ (price.getD 0) * quantity > cfg.max_order_value then
    (st, false, some (.orderValue ((price.getD 0) * quantity) cfg.max_order_value))
  else if st.daily_pnl < -cfg.daily_loss_limit then
    (st, false, some (.dailyLoss st.daily_pnl cfg.daily_loss_limit))
  else if side = Side.BUY ∧ st.current_positions_count ≥ cfg.max_open_positions ∧
      ¬ (current_positions.any fun p => p.symbol == symbol && p.side == PosSide.SHORT) then
    (st, false, some (.maxPositions cfg.max_open_positions))
  else
    let pruned := st.order_timestamps.filter (fun t => t > now.utc - 60)
    if pruned.length ≥ cfg.max_orders_per_minute then
      ({ st with order_timestamps := pruned }, false,
        some (.rateLimit cfg.max_orders_per_minute))
    else
      ({ st with order_timestamps := pruned ++ [now.utc] }, true, none)

/-- On any failed validation the state records no new order timestamp:
the resulting timestamp list is a sublist of the incoming one. -/
theorem validate_order_fail_no_record (cfg : RMConfig) (st : RMState) (now : Now)
    (symbol : String) (side : Side) (quantity : ℕ) (price : Option ℚ)
    (positions : List RMPos) :
    (validate_order cfg st now symbol side quantity price positions).2.1 = false →
    ((validate_order cfg st now symbol side quantity price positions).1).order_timestamps.Sublist
      st.order_timestamps := by
  unfold validate_order
  split <;> split_ifs <;>
    simp [reset_daily, List.filter_sublist, List.nil_sublist, List.Sublist.refl] <;>
    split_ifs <;>
    simp [List.filter_sublist, List.nil_sublist, List.Sublist.refl]

/-- **C5.** With the earlier five checks passing and the daily date
current: when the trailing-60-second window already holds at least
`max_orders_per_minute` recorded timestamps the order is rejected with the
rate-limit reason and no timestamp is recorded (the state keeps exactly
the pruned list); when the window holds fewer, the order passes and
exactly the current timestamp is appended.  Independently, any failed
validation records no timestamp (the resulting list is a sublist of the
incoming one), so timestamps are recorded only on passing calls. -/
theorem C5_rate_limit (cfg : RMConfig) (st : RMState) (now : Now)
    (symbol : String) (side : Side) (quantity : ℕ) (price : Option ℚ)
    (positions : List RMPos)
    (hday : st.daily_date = some now.day)
    (hhours : ¬ (cfg.enforce_market_hours = true ∧
      (now.ist_sec < MARKET_OPEN_SEC ∨ now.ist_sec > MARKET_CLOSE_SEC)))
    (hqty : ¬ quantity > cfg.max_position_size)
    (hval : ¬ ((price.getD 0) > 0 ∧ (price.getD 0) * quantity > cfg.max_order_value))
    (hpnl : ¬ st.daily_pnl < -cfg.daily_loss_limit)
    (hpos : ¬ (side = Side.BUY ∧ st.current_positions_count ≥ cfg.max_open_positions ∧
      ¬ (positions.any fun p => p.symbol == symbol && p.side == PosSide.SHORT))) :
    ((st.order_timestamps.filter (fun t => t > now.utc - 60)).length ≥
        cfg.max_orders_per_minute →
      validate_order cfg st now symbol side quantity price positions =
        ({ st with order_timestamps := st.order_timestamps.filter (fun t => t > now.utc - 60) },
          false, some (.rateLimit cfg.max_orders_per_minute))) ∧
    ((st.order_timestamps.filter (fun t => t > now.utc - 60)).length <
        cfg.max_orders_per_minute →
      validate_order cfg st now symbol side quantity price positions =
        ({ st with order_timestamps :=
            st.order_timestamps.filter (fun t => t > now.utc - 60) ++ [now.utc] },
          true, none)) ∧
    (∀ (st2 : RMState),
      (validate_order cfg st2 now symbol side quantity price positions).2.1 = false →
      ((validate_order cfg st2 now symbol side quantity price positions).1).order_timestamps.Sublist
        st2.order_timestamps) := by
  have hreset : (if ¬ some now.day = st.daily_date then reset_daily st now else st) = st := by
    simp [hday]
  refine ⟨?_, ?_, fun st2 => validate_order_fail_no_record cfg st2 now symbol side
    quantity price positions⟩
  · intro hlen
    simp only [validate_order, hreset]
    rw [if_neg hhours, if_neg hqty, if_neg hval, if_neg hpnl, if_neg hpos,
      if_pos hlen]
  · intro hlen
    simp only [validate_order, hreset]
    rw [if_neg hhours, if_neg hqty, if_neg hval, if_neg hpnl, if_neg hpos,
      if_neg (by omega)]

/-- Risk config with `max_orders_per_minute = 5` (market-hours check off). -/
def w5cfg : RMConfig :=
  { max_position_size := 100, max_order_value := 500000, daily_loss_limit := 50000,
    max_open_positions := 10, max_orders_per_minute := 5, enforce_market_hours := false }

/-- State after five orders passed at UTC seconds 10..50 on day 0. -/
def w5st : RMState :=
  { daily_pnl := 0, order_timestamps := [10, 20, 30, 40, 50],
    current_positions_count := 0, daily_date := some 0 }

/-- The 6th order arrives at t = 60: all five stamps are within 60 s. -/
def w5now6 : Now := { day := 0, ist_sec := 36000, utc := 60 }

/-- The next order arrives at t = 111: every stamp has aged out. -/
def w5now7 : Now := { day := 0, ist_sec := 36000, utc := 111 }

/-- Witness for C5_rate_limit: with `max_orders_per_minute = 5`, the 6th
order inside the window is rejected without recording a timestamp, and the
1st order of the next window is accepted. -/
theorem C5_rate_limit_witness :
    validate_order w5cfg w5st w5now6 "SYM" Side.SELL 1 none [] =
      ({ w5st with order_timestamps := [10, 20, 30, 40, 50] }, false,
        some (.rateLimit 5)) ∧
    validate_order w5cfg w5st w5now7 "SYM" Side.SELL 1 none [] =
      ({ w5st with order_timestamps := [(111 : ℚ)] }, true, none) := by
  have e1 : w5st.order_timestamps.filter (fun t => t > w5now6.utc - 60) =
      [10, 20, 30, 40, 50] := by
    norm_num [w5st, w5now6, List.filter]
  have e2 : w5st.order_timestamps.filter (fun t => t > w5now7.utc - 60) = [] := by
    norm_num [w5st, w5now7, List.filter]
  have h6 := C5_rate_limit w5cfg w5st w5now6 "SYM" Side.SELL 1 none []
    rfl (by simp [w5cfg]) (by norm_num [w5cfg]) (by norm_num)
    (by norm_num [w5st, w5cfg]) (by simp)
  have h7 := C5_rate_limit w5cfg w5st w5now7 "SYM" Side.SELL 1 none []
    rfl (by simp [w5cfg]) (by norm_num [w5cfg]) (by norm_num)
    (by norm_num [w5st, w5cfg]) (by simp)
  constructor
  · have := h6.1 (by rw [e1]; norm_num [w5cfg])
    rwa [e1] at this
  · have := h7.2.1 (by rw [e2]; norm_num [w5cfg])
    rwa [e2] at this

/-- **C9.** `validate_order` skips the maximum-order-value check whenever
the supplied price is `None` or `0`: whatever the other inputs, the
returned rejection reason is never the order-value reason. -/
theorem C9_no_price_skips_order_value (cfg : RMConfig) (st : RMState) (now : Now)
    (symbol : String) (side : Side) (quantity : ℕ) (positions : List RMPos) :
    ((validate_order cfg st now symbol side quantity none positions).2.2.all
      fun r => !r.isOrderValue) = true ∧
    ((validate_order cfg st now symbol side quantity (some 0) positions).2.2.all
      fun r => !r.isOrderValue) = true := by
  have key : ∀ (price : Option ℚ), price.getD 0 = 0 →
      ((validate_order cfg st now symbol side quantity price positions).2.2.all
        fun r => !r.isOrderValue) = true := by
    intro price hp
    unfold validate_order
    simp only [hp, gt_iff_lt, lt_self_iff_false, false_and, if_false]
    split_ifs <;> rfl
  exact ⟨key none rfl, key (some 0) rfl⟩

/-! ## Backtest runner (`app/engine/backtest/runner.py`)

The runner is embedded for the configuration the claims exercise: a
single instrument (bars are the per-symbol bar stream), options mode off
(`options_handler is None`), daily timeframe (no EOD square-off, no time
locks) and no progress callback.  The strategy instance is an arbitrary
state machine over a state type `σ`: each lifecycle hook may update the
strategy state, report orders placed through the context, and optionally
raise (the `Option String` component). -/

/-- One structured log entry (`BacktestRunner._add_log`). -/
structure LogEntry where
  level : String
  source : String
  message : String
deriving Repr, DecidableEq

/-- `FilledOrder` passed to `strategy.on_order_fill`. -/
structure FilledOrder where
  order_id : String
  side : Side
  quantity : ℕ
  fill_price : ℚ
  timestamp : ℕ
deriving Repr, DecidableEq

/-- Mutable runner state: portfolio, the current bar's order queue, the
carried-forward pending orders, the structured log and the strategy
instance's state. -/
structure RunState (σ : Type) where
  portfolio : Portfolio
  order_queue : List OrderEvent
  pending_orders : List OrderEvent
  logs : List LogEntry
  strat : σ
deriving DecidableEq

/-- Update the first order record matching `oid` (the source's
`for rec in self.portfolio.orders: if rec["order_id"] == order_id: ...; break`). -/
def markOrderRec (recs : List OrderRec) (oid : String) (f : OrderRec → OrderRec) :
    List OrderRec :=
  match recs with
  | [] => []
  | r :: rest => if r.order_id = oid then f r :: rest else r :: markOrderRec rest oid f

/-- `BacktestContext.cancel_order`'s scan of `self._runner._order_queue`:
remove the first order matching the id with status `"pending"`, or return
`none` when no queued order matches. -/
def cancelFromQueue (orders : List OrderEvent) (oid : String) :
    Option (List OrderEvent) :=
  match orders with
  | [] => none
  | o :: rest =>
      if o.order_id = oid ∧ o.status = "pending" then some rest
      else match cancelFromQueue rest oid with
        | some rest2 => some (o :: rest2)
        | none => none

/-- `BacktestContext.cancel_order`: searches only `_order_queue` (orders
placed during the current `on_data` call, not yet staged); on a match it
pops the order and marks its record cancelled. -/
def cancel_order {σ : Type} (st : RunState σ) (oid : String) : RunState σ × Bool :=
  match cancelFromQueue st.order_queue oid with
  | some q2 =>
      ({ st with
          order_queue := q2,
          portfolio := { st.portfolio with
            orders := markOrderRec st.portfolio.orders oid
              (fun r => { r with status := "cancelled" }) } },
        true)
  | none => (st, false)

theorem cancelFromQueue_not_found (oid : String) :
    ∀ (q : List OrderEvent),
      (∀ o ∈ q, ¬ (o.order_id = oid ∧ o.status = "pending")) →
      cancelFromQueue q oid = none := by
  intro q
  induction q with
  | nil => intro _; rfl
  | cons o rest ih =>
      intro h
      rw [cancelFromQueue]
      rw [if_neg (h o (by simp))]
      rw [ih (fun o' ho' => h o' (by simp [ho']))]

theorem cancelFromQueue_found (oid : String) :
    ∀ (q1 : List OrderEvent) (o : OrderEvent) (q2 : List OrderEvent),
      (∀ o' ∈ q1, ¬ (o'.order_id = oid ∧ o'.status = "pending")) →
      o.order_id = oid → o.status = "pending" →
      cancelFromQueue (q1 ++ o :: q2) oid = some (q1 ++ q2) := by
  intro q1
  induction q1 with
  | nil =>
      intro o q2 _ hid hst
      simp [cancelFromQueue, hid, hst]
  | cons o1 rest ih =>
      intro o q2 h hid hst
      rw [List.cons_append, cancelFromQueue]
      rw [if_neg (h o1 (by simp))]
      rw [ih o q2 (fun o' ho' => h o' (by simp [ho'])) hid hst]
      rfl

/-- Pending LIMIT order carried forward to a later bar (it lives in
`_pending_orders`, not `_order_queue`). -/
def w8order : OrderEvent :=
  { timestamp := 0, side := Side.BUY, quantity := 1, order_type := OrderType.LIMIT,
    order_id := "BT-0", price := some 90, status := "pending" }

/-- Runner state on a later bar: the carried-forward order is pending but
the current bar's order queue is empty. -/
def w8st : RunState Unit :=
  { portfolio := { Portfolio.init 1000 with
      orders := [{ order_id := "BT-0", side := Side.BUY, quantity := 1,
                   order_type := OrderType.LIMIT, price := some 90,
                   status := "pending" }] },
    order_queue := [], pending_orders := [w8order], logs := [], strat := () }

/-- **C8 (counterexample).** An unfilled pending LIMIT order that was
carried forward to a later bar cannot be cancelled: `cancel_order` returns
`false` and leaves the state (including the order's pending record)
unchanged, contradicting the claim that it returns `true` and cancels. -/
theorem C8_counterexample :
    w8st.pending_orders = [w8order] ∧ w8order.status = "pending" ∧
    cancel_order w8st "BT-0" = (w8st, false) := by
  exact ⟨rfl, rfl, rfl⟩

/-- **C8 (amended).** `cancel_order` succeeds exactly for orders still in
the current bar's `_order_queue` (placed during the current `on_data` call
and not yet staged): for the first queued pending order matching the id it
returns `true`, removes it and marks its record cancelled; when no queued
order matches — in particular for any order only in the carried-forward
`_pending_orders` — it returns `false` and changes nothing. -/
theorem C8_cancel_order_amended {σ : Type} (st : RunState σ) (oid : String) :
    (∀ (q1 : List OrderEvent) (o : OrderEvent) (q2 : List OrderEvent),
      st.order_queue = q1 ++ o :: q2 →
      (∀ o' ∈ q1, ¬ (o'.order_id = oid ∧ o'.status = "pending")) →
      o.order_id = oid → o.status = "pending" →
      cancel_order st oid =
        ({ st with
            order_queue := q1 ++ q2,
            portfolio := { st.portfolio with
              orders := markOrderRec st.portfolio.orders oid
                (fun r => { r with status := "cancelled" }) } }, true)) ∧
    ((∀ o ∈ st.order_queue, ¬ (o.order_id = oid ∧ o.status = "pending")) →
      cancel_order st oid = (st, false)) := by
  constructor
  · intro q1 o q2 hq h hid hst
    rw [cancel_order, hq, cancelFromQueue_found oid q1 o q2 h hid hst]
  · intro h
    rw [cancel_order, cancelFromQueue_not_found oid st.order_queue h]

/-- Runner state with one pending LIMIT order still in the current bar's
order queue. -/
def w8stQ : RunState Unit :=
  { portfolio := { Portfolio.init 1000 with
      orders := [{ order_id := "BT-0", side := Side.BUY, quantity := 1,
                   order_type := OrderType.LIMIT, price := some 90,
                   status := "pending" }] },
    order_queue := [w8order], pending_orders := [], logs := [], strat := () }

/-- Witness for C8_cancel_order_amended: cancelling an order still in the
current order queue succeeds and marks its record cancelled; cancelling
against an empty queue fails. -/
theorem C8_cancel_order_amended_witness :
    cancel_order w8stQ "BT-0" =
      ({ w8stQ with
          order_queue := [],
          portfolio := { w8stQ.portfolio with
            orders := markOrderRec w8stQ.portfolio.orders "BT-0"
              (fun r => { r with status := "cancelled" }) } }, true) ∧
    cancel_order w8st "BT-0" = (w8st, false) := by
  constructor
  · exact (C8_cancel_order_amended w8stQ "BT-0").1 [] w8order [] rfl (by simp) rfl rfl
  · exact (C8_cancel_order_amended w8st "BT-0").2 (by simp [w8st])

/-- The runner's call into the execution handler from
`_process_pending_orders`: for `fill_at="next_open"` the current bar is
passed both as `current_bar` and as `next_bar` (the bar the runner is on
IS the "next" bar for an order placed on the previous bar); for
`"current_close"` only `current_bar` is passed. -/
def runner_execute (cfg : ExecConfig) (o : OrderEvent) (bar : PyBar) :
    Except String (Option FillEvent) :=
  match cfg.fill_at with
  | .next_open => execute_order cfg o bar (some bar)
  | .current_close => execute_order cfg o bar none

/-- State update for one unfillable MARKET order in
`_process_pending_orders`: mark the record rejected and log a warning. -/
def reject_market_step {σ : Type} (st : RunState σ) (o : OrderEvent) : RunState σ :=
  { st with
      portfolio := { st.portfolio with
        orders := markOrderRec st.portfolio.orders o.order_id
          (fun r => { r with status := "rejected" }) },
      logs := st.logs ++
        [⟨"WARNING", "runner", "Market order rejected — could not fill"⟩] }

/-- State update for one filled order in `_process_pending_orders`: mark
the record completed, apply the fill to the portfolio, log, and — only
when a completed trade came back — notify the strategy through `hook`
(exceptions caught and logged at ERROR). -/
def fill_step {σ : Type} (hook : σ → FilledOrder → σ × Option String)
    (st : RunState σ) (o : OrderEvent) (fill : FillEvent) : RunState σ :=
  let portfolio := { st.portfolio with
    orders := markOrderRec st.portfolio.orders o.order_id
      (fun r => { r with
                    status := "completed",
                    fill_price := some fill.fill_price,
                    commission := some fill.commission }) }
  let r := portfolio.update_on_fill fill
  let logs := st.logs ++ [⟨"INFO", "runner", "Order filled"⟩]
  let logs := match r.2 with
    | some _ => logs ++ [⟨"INFO", "runner", "Trade closed"⟩]
    | none => logs
  let sl : σ × List LogEntry := match r.2 with
    | some _ =>
        let fo : FilledOrder :=
          { order_id := fill.order_id, side := fill.side,
            quantity := fill.quantity, fill_price := fill.fill_price,
            timestamp := fill.timestamp }
        match hook st.strat fo with
        | (s2, none) => (s2, logs)
        | (s2, some err) =>
            (s2, logs ++ [⟨"ERROR", "strategy", "on_order_fill raised: " ++ err⟩])
    | none => (st.strat, logs)
  { st with portfolio := r.1, logs := sl.2, strat := sl.1 }

/-- The body of `BacktestRunner._process_pending_orders`: fold over the
pending orders, filling what the execution handler fills (`fill_step`),
carrying unfilled LIMIT/SL/SL-M orders forward and rejecting unfilled
MARKET orders with a warning (`reject_market_step`). -/
def process_orders_loop {σ : Type} (cfg : ExecConfig)
    (hook : σ → FilledOrder → σ × Option String) (bar : PyBar) :
    List OrderEvent → RunState σ → List OrderEvent →
    Except String (RunState σ × List OrderEvent)
  | [], st, still => .ok (st, still)
  | o :: rest, st, still =>
      if ¬ o.status = "pending" then
        process_orders_loop cfg hook bar rest st still
      else
        match runner_execute cfg o bar with
        | .error e => .error e
        | .ok none =>
            match o.order_type with
            | .LIMIT | .SL | .SL_M =>
                process_orders_loop cfg hook bar rest st (still ++ [o])
            | .MARKET =>
                process_orders_loop cfg hook bar rest (reject_market_step st o) still
        | .ok (some fill) =>
            process_orders_loop cfg hook bar rest (fill_step hook st o fill) still

/-- `BacktestRunner._process_pending_orders` (early return when nothing is
pending; otherwise run the loop and replace the pending queue with the
still-pending survivors). -/
def process_pending_orders {σ : Type} (cfg : ExecConfig)
    (hook : σ → FilledOrder → σ × Option String) (bar : PyBar) (st : RunState σ) :
    Except String (RunState σ) :=
  if st.pending_orders = [] then .ok st
  else
    match process_orders_loop cfg hook bar st.pending_orders st [] with
    | .error e => .error e
    | .ok (st2, still) => .ok { st2 with pending_orders := still }

/-- Trivial `on_order_fill` hook for concrete scenarios. -/
def hook0 : Unit → FilledOrder → Unit × Option String := fun s _ => (s, none)

/-- Execution config for the C4 scenario (`fill_at="next_open"`). -/
def w4cfg : ExecConfig := { slippage_pct := 1/2000, fill_at := FillAt.next_open }

/-- Pending MARKET order whose price cannot be resolved. -/
def w4order : OrderEvent :=
  { timestamp := 0, side := Side.BUY, quantity := 1, order_type := OrderType.MARKET,
    order_id := "BT-0", status := "pending" }

/-- Runner state with the pending MARKET order and its pending record. -/
def w4st : RunState Unit :=
  { portfolio := { Portfolio.init 1000 with
      orders := [{ order_id := "BT-0", side := Side.BUY, quantity := 1,
                   order_type := OrderType.MARKET, price := none,
                   status := "pending" }] },
    order_queue := [], pending_orders := [w4order], logs := [], strat := () }

/-- **C4 (counterexample).** A pending MARKET order that cannot resolve a
price (empty current bar) is NOT left pending: `_process_pending_orders`
drops it from the pending queue and marks its record `"rejected"` (with a
warning logged), contradicting the claim that it stays pending and is
retried. -/
theorem C4_counterexample :
    process_pending_orders w4cfg hook0 none w4st =
      .ok { w4st with
        pending_orders := [],
        portfolio := { w4st.portfolio with
          orders := [{ order_id := "BT-0", side := Side.BUY, quantity := 1,
                       order_type := OrderType.MARKET, price := none,
                       status := "rejected" }] },
        logs := [⟨"WARNING", "runner", "Market order rejected — could not fill"⟩] } := by
  rfl

/-- **C4 (amended).** A pending MARKET order for which no price can be
resolved on the execution bar is removed from the pending queue, its order
record is marked `"rejected"`, and a warning is logged — it is not
retried on later bars (only LIMIT/SL/SL-M orders are carried forward). -/
theorem C4_market_unfillable_amended {σ : Type} (cfg : ExecConfig)
    (hook : σ → FilledOrder → σ × Option String) (bar : PyBar) (st : RunState σ)
    (o : OrderEvent)
    (hq : st.pending_orders = [o])
    (hs : o.status = "pending") (ht : o.order_type = OrderType.MARKET)
    (hf : runner_execute cfg o bar = .ok none) :
    process_pending_orders cfg hook bar st =
      .ok { st with
        pending_orders := [],
        portfolio := { st.portfolio with
          orders := markOrderRec st.portfolio.orders o.order_id
            (fun r => { r with status := "rejected" }) },
        logs := st.logs ++
          [⟨"WARNING", "runner", "Market order rejected — could not fill"⟩] } := by
  rw [process_pending_orders, hq]
  rw [if_neg (by simp)]
  rw [process_orders_loop, if_neg (by simp [hs]), hf]
  rw [show (Except.ok (ε := String) (none : Option FillEvent)) = .ok none from rfl]
  simp only [ht]
  rw [process_orders_loop]
  rfl

/-- Witness for C4_market_unfillable_amended at the concrete C4 scenario. -/
theorem C4_market_unfillable_amended_witness :
    process_pending_orders w4cfg hook0 none w4st =
      .ok { w4st with
        pending_orders := [],
        portfolio := { w4st.portfolio with
          orders := markOrderRec w4st.portfolio.orders "BT-0"
            (fun r => { r with status := "rejected" }) },
        logs := w4st.logs ++
          [⟨"WARNING", "runner", "Market order rejected — could not fill"⟩] } :=
  C4_market_unfillable_amended w4cfg hook0 none w4st w4order rfl rfl rfl rfl

theorem update_on_fill_orders_snd (p : Portfolio) (orders2 : List OrderRec)
    (f : FillEvent) :
    (({ p with orders := orders2 }).update_on_fill f).2 = (p.update_on_fill f).2 := by
  rcases p with ⟨ic, cash, posn, ec, tr, orders1, tc⟩
  unfold Portfolio.update_on_fill
  cases posn with
  | none => rfl
  | some pos =>
      simp only []
      split_ifs <;> rfl

/-- Paper runner state slice (`app/engine/paper/runner.py`): portfolio,
order queue, the `_logs` message list and the strategy instance state. -/
structure PaperState (σ : Type) where
  portfolio : Portfolio
  order_queue : List OrderEvent
  logs : List String
  strat : σ
deriving DecidableEq

/-- Loop body of `PaperTradingRunner._process_orders`: every filled order
updates the portfolio and then notifies the strategy via
`on_order_fill` (exceptions caught and logged), regardless of whether the
fill closed a trade; unfilled orders stay pending.  `try_fill` is
`self.broker.try_fill_order`. -/
def paper_orders_loop {σ : Type} (try_fill : OrderEvent → Option FillEvent)
    (hook : σ → FilledOrder → σ × Option String) :
    List OrderEvent → PaperState σ → List OrderEvent → PaperState σ
  | [], st, still => { st with order_queue := still }
  | o :: rest, st, still =>
      if ¬ o.status = "pending" then
        paper_orders_loop try_fill hook rest st still
      else
        match try_fill o with
        | some fill =>
            let r := st.portfolio.update_on_fill fill
            let fo : FilledOrder :=
              { order_id := fill.order_id, side := fill.side,
                quantity := fill.quantity, fill_price := fill.fill_price,
                timestamp := fill.timestamp }
            let hres := hook st.strat fo
            let logs := match hres.2 with
              | some err => st.logs ++ ["[ERROR] on_order_fill: " ++ err]
              | none => st.logs
            paper_orders_loop try_fill hook rest
              { st with portfolio := r.1, strat := hres.1, logs := logs } still
        | none => paper_orders_loop try_fill hook rest st (still ++ [o])

/-- `PaperTradingRunner._process_orders`. -/
def paper_process_orders {σ : Type} (try_fill : OrderEvent → Option FillEvent)
    (hook : σ → FilledOrder → σ × Option String) (st : PaperState σ) : PaperState σ :=
  paper_orders_loop try_fill hook st.order_queue st []

/-- **C10.** In the backtest runner a fill invokes the strategy's
`on_order_fill` hook iff the fill produced a completed Trade: the
resulting strategy state is the hook's output when `update_on_fill`
returns a trade and is unchanged when it returns none (fills that open or
extend a position never notify).  The paper runner instead notifies the
strategy on every fill. -/
theorem C10_on_order_fill_iff_trade {σ : Type} (cfg : ExecConfig)
    (hook : σ → FilledOrder → σ × Option String) (bar : PyBar)
    (st : RunState σ) (o : OrderEvent) (fill : FillEvent)
    (hq : st.pending_orders = [o]) (hs : o.status = "pending")
    (hf : runner_execute cfg o bar = .ok (some fill))
    (try_fill : OrderEvent → Option FillEvent)
    (pst : PaperState σ) (hpq : pst.order_queue = [o])
    (hpf : try_fill o = some fill) :
    ((process_pending_orders cfg hook bar st).map (fun s => s.strat) =
      .ok (match (st.portfolio.update_on_fill fill).2 with
           | some _ => (hook st.strat
               { order_id := fill.order_id, side := fill.side,
                 quantity := fill.quantity, fill_price := fill.fill_price,
                 timestamp := fill.timestamp }).1
           | none => st.strat)) ∧
    ((paper_process_orders try_fill hook pst).strat =
      (hook pst.strat
        { order_id := fill.order_id, side := fill.side,
          quantity := fill.quantity, fill_price := fill.fill_price,
          timestamp := fill.timestamp }).1) := by
  constructor
  · rw [process_pending_orders, hq]
    rw [if_neg (by simp)]
    rw [process_orders_loop, if_neg (by simp [hs]), hf]
    rw [process_orders_loop]
    have heq := update_on_fill_orders_snd st.portfolio
      (markOrderRec st.portfolio.orders o.order_id fun r =>
        { r with status := "completed", fill_price := some fill.fill_price,
                 commission := some fill.commission }) fill
    cases htr : (st.portfolio.update_on_fill fill).2 with
    | none => simp [process_orders_loop, fill_step, Except.map, heq, htr]
    | some tr =>
        cases hh : hook st.strat
          { order_id := fill.order_id, side := fill.side,
            quantity := fill.quantity, fill_price := fill.fill_price,
            timestamp := fill.timestamp } with
        | mk s2 err =>
            cases err <;> simp [process_orders_loop, fill_step, Except.map, heq, htr, hh]
  · rw [paper_process_orders, hpq]
    rw [paper_orders_loop, if_neg (by simp [hs]), hpf]
    simp [paper_orders_loop]

/-- Counting `on_order_fill` hook: increments the strategy state on every
invocation. -/
def hookN : ℕ → FilledOrder → ℕ × Option String := fun s _ => (s + 1, none)

/-- Zero-slippage current-close execution config for the C10 scenario. -/
def w10cfg : ExecConfig := { slippage_pct := 0, fill_at := FillAt.current_close }

/-- Bar on which the C10 market order fills at the close. -/
def w10bar : BarD := { open_ := 100, high := 101, low := 99, close := 100, timestamp := 5 }

/-- Pending MARKET BUY order that opens a fresh position when filled. -/
def w10order : OrderEvent :=
  { timestamp := 0, side := Side.BUY, quantity := 1, order_type := OrderType.MARKET,
    order_id := "BT-0", status := "pending" }

/-- The fill the execution handler produces for `w10order` on `w10bar`. -/
def w10fill : FillEvent :=
  create_fill w10cfg w10order (apply_slippage w10cfg 100 Side.BUY) (some w10bar) none

/-- Backtest runner state holding the pending order over an empty portfolio. -/
def w10st : RunState ℕ :=
  { portfolio := { Portfolio.init 1000 with
      orders := [{ order_id := "BT-0", side := Side.BUY, quantity := 1,
                   order_type := OrderType.MARKET, price := none,
                   status := "pending" }] },
    order_queue := [], pending_orders := [w10order], logs := [], strat := 0 }

/-- Paper runner state holding the same order over an empty portfolio. -/
def w10pst : PaperState ℕ :=
  { portfolio := Portfolio.init 1000, order_queue := [w10order], logs := [], strat := 0 }

/-- Paper broker that fills the order with `w10fill`. -/
def w10try : OrderEvent → Option FillEvent := fun _ => some w10fill

/-- Witness for C10_on_order_fill_iff_trade: the position-opening fill
leaves the backtest strategy state untouched (hook not invoked: counter
stays 0) while the paper runner's hook fires on the same fill (counter
becomes 1). -/
theorem C10_on_order_fill_iff_trade_witness :
    (process_pending_orders w10cfg hookN (some w10bar) w10st).map (fun s => s.strat) =
      .ok 0 ∧
    (paper_process_orders w10try hookN w10pst).strat = 1 := by
  have h := C10_on_order_fill_iff_trade w10cfg hookN (some w10bar) w10st w10order w10fill
    rfl rfl rfl w10try w10pst rfl rfl
  constructor
  · rw [h.1]; rfl
  · rw [h.2]; rfl

/-- Parameters of a `ctx.buy()`/`ctx.sell()` call made by the strategy
during `on_data`. -/
structure OrderReq where
  side : Side
  quantity : ℕ
  order_type : OrderType
  price : Option ℚ := none
  product : Product := Product.MIS
  exchange : Exchange := Exchange.NSE

/-- An arbitrary strategy instance over internal state `σ`.  Each hook
returns the (possibly mutated) strategy state plus `some message` when the
callback raises; `on_data` additionally reports the orders it placed
through the context before returning or raising. -/
structure StrategyM (σ : Type) where
  on_init : σ → σ × Option String
  on_data : σ → RunState σ → ℕ × BarD → σ × List OrderReq × Option String
  on_order_fill : σ → FilledOrder → σ × Option String
  on_stop : σ → σ × Option String

/-- `BacktestContext._place_order`: build the `OrderEvent` (with the
queue-length order id and the SL/SL-M trigger price), queue it, append the
pending order record and an INFO log line. -/
def place_order {σ : Type} (ts : ℕ) (st : RunState σ) (r : OrderReq) : RunState σ :=
  let order_id := "BT-" ++ toString st.order_queue.length
  let trigger : Option ℚ := match r.order_type with
    | .SL => r.price
    | .SL_M => r.price
    | _ => none
  let order : OrderEvent :=
    { timestamp := ts, side := r.side, quantity := r.quantity,
      order_type := r.order_type, order_id := order_id, price := r.price,
      trigger_price := trigger, product := r.product, exchange := r.exchange,
      status := "pending" }
  { st with
      order_queue := st.order_queue ++ [order],
      portfolio := { st.portfolio with
        orders := st.portfolio.orders ++
          [{ order_id := order_id, side := r.side, quantity := r.quantity,
             order_type := r.order_type, price := r.price, status := "pending" }] },
      logs := st.logs ++ [⟨"INFO", "strategy", "order queued"⟩] }

/-- One iteration of the backtest bar loop (`_run_internal` step 5, daily
timeframe so no EOD square-off or time locks): (a) fill pending orders,
(b) call `on_data` with its exception caught and logged at ERROR, (c)
stage newly placed orders for the next bar, (d) record one equity point. -/
def run_bar {σ : Type} (cfg : ExecConfig) (strat : StrategyM σ) (bar_index : ℕ)
    (bar : ℕ × BarD) (st : RunState σ) : Except String (RunState σ) :=
  match process_pending_orders cfg strat.on_order_fill (some bar.2) st with
  | .error e => .error e
  | .ok st1 =>
      let d := strat.on_data st1.strat st1 bar
      let st2 := { st1 with strat := d.1 }
      let st3 := d.2.1.foldl (place_order bar.1) st2
      let st4 := match d.2.2 with
        | some err => { st3 with logs := st3.logs ++
            [LogEntry.mk "ERROR" "strategy"
              ("on_data raised at bar " ++ toString bar_index ++ ": " ++ err)] }
        | none => st3
      let st5 := { st4 with
        pending_orders := st4.pending_orders ++ st4.order_queue, order_queue := [] }
      .ok { st5 with portfolio := st5.portfolio.record_equity bar.1 (some bar.2.close) }

/-- The bar loop over the whole historical sequence. -/
def run_bars {σ : Type} (cfg : ExecConfig) (strat : StrategyM σ) :
    List (ℕ × BarD) → ℕ → RunState σ → Except String (RunState σ)
  | [], _, st => .ok st
  | b :: rest, i, st =>
      match run_bar cfg strat i b st with
      | .error e => .error e
      | .ok st2 => run_bars cfg strat rest (i + 1) st2

/-- Fresh runner state at the start of a run. -/
def initRunState {σ : Type} (capital : ℚ) (s : σ) : RunState σ :=
  { portfolio := Portfolio.init capital, order_queue := [], pending_orders := [],
    logs := [⟨"INFO", "runner", "Backtest started"⟩], strat := s }

/-- `BacktestRunner._run_internal`: empty data short-circuits to a
completed run; `on_init` is called next and a raise aborts (propagates);
then the bar loop runs; finally open positions are force-closed, a last
equity point is recorded and `on_stop` is called with its exception caught
and logged at ERROR. -/
def run_internal {σ : Type} (cfg : ExecConfig) (strat : StrategyM σ) (s0 : σ)
    (bars : List (ℕ × BarD)) (capital : ℚ) : Except String (RunState σ) :=
  if bars.length = 0 then
    .ok { initRunState capital s0 with
      logs := (initRunState capital s0).logs ++
        [⟨"WARNING", "runner", "No data available"⟩] }
  else
    let st0 := initRunState capital s0
    match strat.on_init s0 with
    | (_, some err) => .error ("on_init raised: " ++ err)
    | (s1, none) =>
        let st1 :=
          { st0 with
              strat := s1,
              logs := st0.logs ++
                [LogEntry.mk "INFO" "runner" "Strategy on_init() completed"] }
        match run_bars cfg strat bars 0 st1 with
        | .error e => .error e
        | .ok st2 =>
            let final_price : Option ℚ := (bars.getLast?).map (fun b => b.2.close)
            let final_ts : ℕ := ((bars.getLast?).map (fun b => b.1)).getD 0
            let c := st2.portfolio.close_all_positions final_price final_ts
            let st3 :=
              { st2 with
                  portfolio := c.1,
                  logs := st2.logs ++ c.2.map
                    (fun _ => LogEntry.mk "INFO" "runner" "Force-closed position") }
            let st4 := { st3 with
              portfolio := st3.portfolio.record_equity final_ts final_price }
            let st5 := match strat.on_stop st4.strat with
              | (s2, some err) =>
                  { st4 with
                      strat := s2,
                      logs := st4.logs ++
                        [LogEntry.mk "ERROR" "strategy" ("on_stop raised: " ++ err)] }
              | (s2, none) =>
                  { st4 with
                      strat := s2,
                      logs := st4.logs ++
                        [LogEntry.mk "INFO" "runner" "Strategy on_stop() completed"] }
            .ok st5

/-- Result of `BacktestRunner.run`: the completed final state, or the
failure message when `_run_internal` raised (the failed dict's `status` is
`"failed"`). -/
inductive RunOutcome (σ : Type) where
  | completed (st : RunState σ)
  | failed (error : String)

/-- The `status` field of the results dict. -/
def RunOutcome.status {σ : Type} : RunOutcome σ → String
  | .completed _ => "completed"
  | .failed _ => "failed"

/-- `BacktestRunner.run`: catch any exception from `_run_internal` and
turn it into a failed result. -/
def run {σ : Type} (cfg : ExecConfig) (strat : StrategyM σ) (s0 : σ)
    (bars : List (ℕ × BarD)) (capital : ℚ) : RunOutcome σ :=
  match run_internal cfg strat s0 bars capital with
  | .ok st => .completed st
  | .error e => .failed e

theorem update_on_fill_equity (p : Portfolio) (f : FillEvent) :
    ((p.update_on_fill f).1).equity_curve = p.equity_curve := by
  rcases p with ⟨ic, cash, posn, ec, tr, ors, tc⟩
  unfold Portfolio.update_on_fill
  cases posn with
  | none =>
      simp only [Portfolio.open_position]
      split_ifs <;> rfl
  | some pos =>
      simp only []
      split_ifs <;> rfl

theorem close_all_positions_equity (p : Portfolio) (price : Option ℚ) (ts : ℕ) :
    ((p.close_all_positions price ts).1).equity_curve = p.equity_curve := by
  unfold Portfolio.close_all_positions
  cases hp : p.position with
  | none => rfl
  | some pos =>
      simp only []
      exact update_on_fill_equity _ _

theorem get_execution_bar_runner (cfg : ExecConfig) (b : BarD) (next : Option PyBar)
    (h : next = none ∨ next = some (some b)) :
    get_execution_bar cfg (some b) next = some b := by
  rcases h with h | h <;> subst h <;>
    cases h2 : cfg.fill_at <;> simp [get_execution_bar, h2]

theorem runner_execute_isOk (cfg : ExecConfig) (o : OrderEvent) (b : BarD) :
    ∃ r, runner_execute cfg o (some b) = .ok r := by
  have hnext : ∀ (next : Option PyBar), next = none ∨ next = some (some b) →
      ∃ r, execute_order cfg o (some b) next = .ok r := by
    intro next hn
    have hb := get_execution_bar_runner cfg b next hn
    cases hot : o.order_type <;> simp only [execute_order, hot]
    · exact ⟨_, rfl⟩
    · cases hp : o.price <;> simp only [fill_limit, hp, hb]
      · exact ⟨_, rfl⟩
      · cases hside : o.side <;> simp only [hside] <;> split_ifs <;> exact ⟨_, rfl⟩
    · cases hp : o.trigger_price <;> simp only [fill_stop_loss, hp, hb]
      · exact ⟨_, rfl⟩
      · cases hside : o.side <;> simp only [hside] <;> split_ifs <;> exact ⟨_, rfl⟩
    · cases hp : o.trigger_price <;> simp only [fill_stop_loss_market, hp, hb]
      · exact ⟨_, rfl⟩
      · cases hside : o.side <;> simp only [hside] <;> split_ifs <;> exact ⟨_, rfl⟩
  cases hfa : cfg.fill_at <;> simp only [runner_execute, hfa]
  · exact hnext (some (some b)) (Or.inr rfl)
  · exact hnext none (Or.inl rfl)

theorem fill_step_equity {σ : Type} (hook : σ → FilledOrder → σ × Option String)
    (st : RunState σ) (o : OrderEvent) (fill : FillEvent) :
    (fill_step hook st o fill).portfolio.equity_curve = st.portfolio.equity_curve := by
  unfold fill_step
  simp only []
  exact update_on_fill_equity _ _

theorem fill_step_logs {σ : Type} (hook : σ → FilledOrder → σ × Option String)
    (st : RunState σ) (o : OrderEvent) (fill : FillEvent) :
    st.logs <+: (fill_step hook st o fill).logs := by
  unfold fill_step
  simp only []
  split
  · split
    · simp [List.append_assoc]
    · simp [List.append_assoc]
  · simp [List.append_assoc]

theorem process_orders_loop_ok {σ : Type} (cfg : ExecConfig)
    (hook : σ → FilledOrder → σ × Option String) (b : BarD) :
    ∀ (orders : List OrderEvent) (st : RunState σ) (still : List OrderEvent),
      ∃ st2 still2,
        process_orders_loop cfg hook (some b) orders st still = .ok (st2, still2) ∧
        st2.portfolio.equity_curve = st.portfolio.equity_curve ∧
        st.logs <+: st2.logs := by
  intro orders
  induction orders with
  | nil =>
      intro st still
      exact ⟨st, still, rfl, rfl, List.prefix_refl _⟩
  | cons o rest ih =>
      intro st still
      rw [process_orders_loop]
      by_cases hs : o.status = "pending"
      · rw [if_neg (not_not_intro hs)]
        obtain ⟨r, hr⟩ := runner_execute_isOk cfg o b
        rw [hr]
        cases r with
        | none =>
            cases hot : o.order_type <;> simp only []
            · obtain ⟨st2, still2, h1, h2, h3⟩ := ih (reject_market_step st o) still
              refine ⟨st2, still2, h1, h2.trans rfl, ?_⟩
              exact List.IsPrefix.trans (List.prefix_append _ _) h3
            · exact ih st (still ++ [o])
            · exact ih st (still ++ [o])
            · exact ih st (still ++ [o])
        | some fill =>
            obtain ⟨st2, still2, h1, h2, h3⟩ := ih (fill_step hook st o fill) still
            refine ⟨st2, still2, h1, h2.trans (fill_step_equity hook st o fill), ?_⟩
            exact List.IsPrefix.trans (fill_step_logs hook st o fill) h3
      · rw [if_pos hs]
        exact ih st still

theorem process_pending_orders_ok {σ : Type} (cfg : ExecConfig)
    (hook : σ → FilledOrder → σ × Option String) (b : BarD) (st : RunState σ) :
    ∃ st2, process_pending_orders cfg hook (some b) st = .ok st2 ∧
      st2.portfolio.equity_curve = st.portfolio.equity_curve ∧
      st.logs <+: st2.logs := by
  rw [process_pending_orders]
  by_cases hp : st.pending_orders = []
  · rw [if_pos hp]
    exact ⟨st, rfl, rfl, List.prefix_refl _⟩
  · rw [if_neg hp]
    obtain ⟨st2, still2, h1, h2, h3⟩ :=
      process_orders_loop_ok cfg hook b st.pending_orders st []
    rw [h1]
    exact ⟨_, rfl, h2, h3⟩

theorem foldl_place_order_ok {σ : Type} (ts : ℕ) :
    ∀ (reqs : List OrderReq) (st : RunState σ),
      ((reqs.foldl (place_order ts) st).portfolio.equity_curve =
        st.portfolio.equity_curve) ∧
      (st.logs <+: (reqs.foldl (place_order ts) st).logs) := by
  intro reqs
  induction reqs with
  | nil => intro st; exact ⟨rfl, List.prefix_refl _⟩
  | cons r rest ih =>
      intro st
      rw [List.foldl_cons]
      obtain ⟨h1, h2⟩ := ih (place_order ts st r)
      exact ⟨h1.trans rfl, List.IsPrefix.trans (List.prefix_append _ _) h2⟩

theorem run_bar_ok {σ : Type} (cfg : ExecConfig) (strat : StrategyM σ) (i : ℕ)
    (b : ℕ × BarD) (st : RunState σ) :
    ∃ st2, run_bar cfg strat i b st = .ok st2 ∧
      st2.portfolio.equity_curve.length = st.portfolio.equity_curve.length + 1 ∧
      st.logs <+: st2.logs ∧
      ((∀ (s : σ) (stv : RunState σ) (bv : ℕ × BarD),
          (strat.on_data s stv bv).2.2.isSome = true) →
        ∃ l ∈ st2.logs, l.level = "ERROR" ∧ l.source = "strategy") := by
  obtain ⟨st1, h1, he1, hl1⟩ := process_pending_orders_ok cfg strat.on_order_fill b.2 st
  rw [run_bar, h1]
  obtain ⟨hfe, hfl⟩ := foldl_place_order_ok b.1
    ((strat.on_data st1.strat st1 b).2.1)
    { st1 with strat := (strat.on_data st1.strat st1 b).1 }
  cases hd : (strat.on_data st1.strat st1 b).2.2 with
  | none =>
      simp only [hd]
      refine ⟨_, rfl, ?_, ?_, ?_⟩
      · simp [Portfolio.record_equity, hfe, he1]
      · calc st.logs <+: st1.logs := hl1
          _ <+: _ := hfl
      · intro hAll
        exact absurd (hAll st1.strat st1 b) (by simp [hd])
  | some err =>
      simp only [hd]
      refine ⟨_, rfl, ?_, ?_, ?_⟩
      · simp [Portfolio.record_equity, hfe, he1]
      · calc st.logs <+: st1.logs := hl1
          _ <+: _ := hfl
          _ <+: _ := List.prefix_append _ _
      · intro _
        refine ⟨LogEntry.mk "ERROR" "strategy"
          ("on_data raised at bar " ++ toString i ++ ": " ++ err), ?_, rfl, rfl⟩
        simp

theorem run_bars_ok {σ : Type} (cfg : ExecConfig) (strat : StrategyM σ) :
    ∀ (bars : List (ℕ × BarD)) (i : ℕ) (st : RunState σ),
      ∃ st2, run_bars cfg strat bars i st = .ok st2 ∧
        st2.portfolio.equity_curve.length =
          st.portfolio.equity_curve.length + bars.length ∧
        st.logs <+: st2.logs ∧
        ((bars ≠ [] ∧ ∀ (s : σ) (stv : RunState σ) (bv : ℕ × BarD),
            (strat.on_data s stv bv).2.2.isSome = true) →
          ∃ l ∈ st2.logs, l.level = "ERROR" ∧ l.source = "strategy") := by
  intro bars
  induction bars with
  | nil =>
      intro i st
      exact ⟨st, rfl, rfl, List.prefix_refl _, fun h => absurd rfl h.1⟩
  | cons b rest ih =>
      intro i st
      obtain ⟨st2, h1, h2, h3, h4⟩ := run_bar_ok cfg strat i b st
      obtain ⟨st3, g1, g2, g3, g4⟩ := ih (i + 1) st2
      rw [run_bars, h1]
      refine ⟨st3, g1, ?_, h3.trans g3, ?_⟩
      · rw [g2, h2, List.length_cons]
        omega
      · rintro ⟨-, hAll⟩
        obtain ⟨l, hl, hlv, hls⟩ := h4 hAll
        exact ⟨l, g3.sublist.subset hl, hlv, hls⟩

/-- **C7.** Strategy exceptions: a fault in `on_init` aborts the run with
status `"failed"`; when `on_init` succeeds the run always reports
`"completed"` (faults in `on_data` or `on_stop` never abort it), the loop
continues through every bar (one equity point per bar plus the final
point), and a strategy whose `on_data` always raises still completes with
an ERROR-level strategy entry recorded in the run log. -/
theorem C7_strategy_faults {σ : Type} (cfg : ExecConfig) (strat : StrategyM σ)
    (s0 : σ) (bars : List (ℕ × BarD)) (capital : ℚ) :
    ((∃ e, (strat.on_init s0).2 = some e) → bars ≠ [] →
      (run cfg strat s0 bars capital).status = "failed") ∧
    ((strat.on_init s0).2 = none →
      (run cfg strat s0 bars capital).status = "completed" ∧
      (bars ≠ [] →
        ∃ st, run cfg strat s0 bars capital = .completed st ∧
          st.portfolio.equity_curve.length = bars.length + 1 ∧
          ((∀ (s : σ) (stv : RunState σ) (bv : ℕ × BarD),
              (strat.on_data s stv bv).2.2.isSome = true) →
            ∃ l ∈ st.logs, l.level = "ERROR" ∧ l.source = "strategy"))) := by
  rcases hi : strat.on_init s0 with ⟨s1, oe⟩
  constructor
  · rintro ⟨e, he⟩ hb
    simp only at he
    subst he
    simp only [run, run_internal, hi]
    rw [if_neg (by simpa using hb)]
    rfl
  · intro hnone
    simp only at hnone
    subst hnone
    by_cases hb : bars = []
    · subst hb
      exact ⟨rfl, fun h => absurd rfl h⟩
    · obtain ⟨st2, h1, h2, h3, h4⟩ := run_bars_ok cfg strat bars 0
        { initRunState capital s0 with
            strat := s1,
            logs := (initRunState capital s0).logs ++
              [LogEntry.mk "INFO" "runner" "Strategy on_init() completed"] }
      rcases hstop : strat.on_stop st2.strat with ⟨s2, oe2⟩
      constructor
      · simp only [run, run_internal, hi, h1]
        rw [if_neg (by simpa using hb)]
        rfl
      · intro _
        simp only [run, run_internal, hi, h1]
        rw [if_neg (by simpa using hb)]
        simp only [hstop]
        cases oe2 with
        | none =>
            refine ⟨_, rfl, ?_, ?_⟩
            · simp [Portfolio.record_equity, close_all_positions_equity, h2,
                initRunState, Portfolio.init]
            · intro hAll
              obtain ⟨l, hl, hlv, hls⟩ := h4 ⟨hb, hAll⟩
              exact ⟨l, by simp [hl], hlv, hls⟩
        | some err =>
            refine ⟨_, rfl, ?_, ?_⟩
            · simp [Portfolio.record_equity, close_all_positions_equity, h2,
                initRunState, Portfolio.init]
            · intro hAll
              obtain ⟨l, hl, hlv, hls⟩ := h4 ⟨hb, hAll⟩
              exact ⟨l, by simp [hl], hlv, hls⟩

/-- One-bar data set for the C7 scenarios. -/
def w7bar : ℕ × BarD := (0, { open_ := 100, high := 101, low := 99, close := 100, timestamp := 0 })

/-- Zero-slippage current-close execution config for the C7 scenarios. -/
def w7cfg : ExecConfig := { slippage_pct := 0, fill_at := FillAt.current_close }

/-- Strategy whose `on_data` always raises. -/
def w7stratData : StrategyM Unit :=
  { on_init := fun s => (s, none),
    on_data := fun s _ _ => (s, [], some "boom"),
    on_order_fill := fun s _ => (s, none),
    on_stop := fun s => (s, none) }

/-- Strategy whose `on_init` raises. -/
def w7stratInit : StrategyM Unit :=
  { on_init := fun s => (s, some "dead"),
    on_data := fun s _ _ => (s, [], none),
    on_order_fill := fun s _ => (s, none),
    on_stop := fun s => (s, none) }

/-- Witness for C7_strategy_faults: an `on_init` fault yields a failed
run; an always-raising `on_data` still completes a one-bar run with two
equity points and an ERROR strategy log entry. -/
theorem C7_strategy_faults_witness :
    (run w7cfg w7stratInit () [w7bar] 1000).status = "failed" ∧
    (run w7cfg w7stratData () [w7bar] 1000).status = "completed" ∧
    ∃ st, run w7cfg w7stratData () [w7bar] 1000 = .completed st ∧
      st.portfolio.equity_curve.length = 2 ∧
      ∃ l ∈ st.logs, l.level = "ERROR" ∧ l.source = "strategy" := by
  refine ⟨?_, ?_, ?_⟩
  · exact (C7_strategy_faults w7cfg w7stratInit () [w7bar] 1000).1
      ⟨"dead", rfl⟩ (by simp)
  · exact ((C7_strategy_faults w7cfg w7stratData () [w7bar] 1000).2 rfl).1
  · obtain ⟨st, hst, hlen, herr⟩ :=
      ((C7_strategy_faults w7cfg w7stratData () [w7bar] 1000).2 rfl).2 (by simp)
    exact ⟨st, hst, by simpa using hlen, herr (fun s stv bv => rfl)⟩
